import Mathlib

/-!
Verification of `easybuild/tools/docs.py` (EasyBuild framework documentation
module) via a shallow embedding.

The module renders overviews of easyconfig parameters (plain text and RST) and
of easyblock classes.  External collaborators (`DEFAULT_CONFIG`, `HIDDEN`,
`sorted_categories`, `get_easyblock_class`, `quote_str`) live outside the
repository slice under verification; they are taken as parameters of a
`Framework` record, and `quote_str` is modelled from the spec.

Python data is embedded as follows: dicts become association lists with
Python `dict` update/delete semantics (`dictSet`, `dictDel`, `dictUpdate`),
`max` over a possibly-empty sequence becomes the `Option`-valued `pythonMax`
(`none` models the `ValueError` raised on an empty sequence), and exceptions
escaping `avail_easyconfig_params` become an `Except PyError` result.
-/

/-- A Python value used as a parameter default: either a `str`, or any other
object together with its `str()` rendering. -/
inductive PyVal where
  | str (s : String)
  | other (r : String)
deriving DecidableEq

/-- Modelled from the spec: `quote_str` (from `easybuild.tools.utilities`, not
part of the source slice) "adds literal quote characters around string-typed
defaults and leaves other types as their plain textual form"; the spec's
example scenario shows single quotes: `[default: 'ConfigureMake']`.
Renderers apply `str(...)` on top, which is the identity on this model. -/
def quote_str : PyVal → String
  | PyVal.str s => "\x27" ++ s ++ "\x27"
  | PyVal.other r => r

/-- Python `str()` of a value: a string renders as itself (no quotes). -/
def pyStr : PyVal → String
  | PyVal.str s => s
  | PyVal.other r => r

/-- Python `str.upper()` (ASCII, as used on category labels):
uppercase every character.  Structural over the character list so concrete
outputs reduce definitionally. -/
def pyUpper (s : String) : String :=
  String.mk (s.data.map Char.toUpper)

/-- Python `str.strip()`: drop whitespace from both ends. -/
def pyStrip (s : String) : String :=
  String.mk
    (((s.data.dropWhile Char.isWhitespace).reverse.dropWhile
      Char.isWhitespace).reverse)

/-- A parameter category: `(sort key, human-readable label)`. -/
abbrev Category := Nat × String

/-- The value stored for one parameter: `(default, description, category)`. -/
abbrev ParamInfo := PyVal × String × Category

/-- A Python dict mapping parameter name to `ParamInfo`, as an assoc list in
insertion order. -/
abbrev ParamTable := List (String × ParamInfo)

/-- One group of the grouped-parameters mapping: name -> (description, default). -/
abbrev ParamGroup := List (String × (String × PyVal))

/-- `GroupedParameters`: ordered mapping from category label to a `ParamGroup`. -/
abbrev GroupedParams := List (String × ParamGroup)

/-- Python `d[k] = v` on a dict: replace in place when the key exists,
append otherwise. -/
def dictSet {α : Type} (d : List (String × α)) (k : String) (v : α) :
    List (String × α) :=
  if d.any (fun p => p.1 == k) then
    d.map (fun p => if p.1 == k then (k, v) else p)
  else
    d ++ [(k, v)]

/-- Python `del d[k]` (as used on a key known to exist; on a missing key it is
a no-op here, which only widens the domain). -/
def dictDel {α : Type} (d : List (String × α)) (k : String) : List (String × α) :=
  d.filter (fun p => p.1 != k)

/-- Python `d.get(k)` / `d[k]` lookup. -/
def dictGet {α : Type} (d : List (String × α)) (k : String) : Option α :=
  (d.find? (fun p => p.1 == k)).map (fun p => p.2)

/-- Python `d.update(e)`: set every key/value pair of `e` in `d`, in order. -/
def dictUpdate {α : Type} (d e : List (String × α)) : List (String × α) :=
  e.foldl (fun acc p => dictSet acc p.1 p.2) d

/-- Python `max` over a sequence of numbers: `ValueError` (`none`) when empty. -/
def pythonMax : List Nat → Option Nat
  | [] => none
  | x :: xs => some (xs.foldl Nat.max x)

/-- `det_col_width(entries, title)`:
`return max(map(len, entries + [title]))` (docs.py line 51). -/
def det_col_width (entries : List String) (title : String) : Option Nat :=
  pythonMax ((entries ++ [title]).map String.length)

/-- `s * n` for a one-character string in Python. -/
def strRep (c : Char) (n : Nat) : String :=
  String.mk (List.replicate n c)

/-- Python `"{0:{c}<w}".format(s)`: left-align `s`, padding with `c` to width
`w`; a string longer than `w` is emitted unchanged (no truncation). -/
def padWith (c : Char) (w : Nat) (s : String) : String :=
  s ++ strRep c (w - s.length)

/-- Python `"{0:<{nw}}".format(s)`: left-align with spaces. -/
def ljust (w : Nat) (s : String) : String :=
  padWith ' ' w s

/-- Insert an entry into a key-sorted list, before the first strictly larger
key. -/
def insertByKey {α : Type} (x : String × α) :
    List (String × α) → List (String × α)
  | [] => [x]
  | y :: ys => if x.1 < y.1 then x :: y :: ys else y :: insertByKey x ys

/-- Python `sorted(d.items())` on a dict with (unique) string keys: sort by
key (insertion sort; on the unique keys of a dict this agrees with Python's
stable sort). -/
def sortByKey {α : Type} : List (String × α) → List (String × α)
  | [] => []
  | x :: xs => insertByKey x (sortByKey xs)

def FORMAT_RST : String := "rst"
def FORMAT_TXT : String := "txt"

/-- An easyblock class as consumed by `avail_easyconfig_params`:
its `__name__` and the result of `extra_options()`. -/
structure EasyblockClass where
  name : String
  extra_options : ParamTable
deriving DecidableEq

/-- The external collaborators of docs.py, supplied by the framework:
the default parameter table, the canonical category order, the hidden-category
marker, and class resolution.  `get_easyblock_class` models the external
resolver with `default_fallback=False`: it yields `none` on failure. -/
structure Framework where
  DEFAULT_CONFIG : ParamTable
  sorted_categories : List Category
  HIDDEN : String
  get_easyblock_class : String → Option EasyblockClass

/-- Errors that can escape `avail_easyconfig_params`: a `KeyError` from the
renderer-dispatch dict, or a `ValueError` from `max` over an empty sequence. -/
inductive PyError where
  | keyError (k : String)
  | valueError
deriving DecidableEq

/-- The lines rendered for one group by `avail_easyconfig_params_rst`
(docs.py lines 65-93, the body of the `for grpname in grouped_params` loop). -/
def rst_group_lines (g : String × ParamGroup) : Option (List String) := do
  let name_title := "**Parameter name**"
  let descr_title := "**Description**"
  let dflt_title := "**Default value**"
  let nw0 ← det_col_width (g.2.map (fun e => e.1)) name_title
  let nw := nw0 + 4
  let dw ← det_col_width (g.2.map (fun e => e.2.1)) descr_title
  let dfw ← det_col_width (g.2.map (fun e => quote_str e.2.2)) dflt_title
  let row := fun (c : Char) (a b d : String) =>
    padWith c nw a ++ "   " ++ padWith c dw b ++ "   " ++ padWith c dfw d
  let grptitle := g.1 ++ " parameters"
  pure ([grptitle, strRep '-' grptitle.length, ""] ++
    [row '=' "" "" "", row ' ' name_title descr_title dflt_title,
      row '-' "" "" ""] ++
    (sortByKey g.2).map
      (fun e => row ' ' ("``" ++ e.1 ++ "``") e.2.1 (quote_str e.2.2)) ++
    [row '=' "" "" "", ""])

/-- `avail_easyconfig_params_rst(title, grouped_params)` (docs.py 54-95). -/
def avail_easyconfig_params_rst (title : String) (grouped : GroupedParams) :
    Option String := do
  let groups ← grouped.mapM rst_group_lines
  pure (String.intercalate "\n" ([title, strRep '=' title.length, ""] ++
    groups.flatten))

/-- The lines rendered for one group by `avail_easyconfig_params_txt`
(docs.py lines 107-118): group title, underline, one line per parameter.
`nw = max(map(len, grouped_params[grpname].keys()))` raises `ValueError`
(`none`) on an empty group. -/
def txt_group_lines (g : String × ParamGroup) : Option (List String) := do
  let nw ← pythonMax ((g.2.map (fun e => e.1)).map String.length)
  pure ([pyUpper g.1, strRep '-' (pyUpper g.1).length] ++
    (sortByKey g.2).map
      (fun e => ljust nw e.1 ++ "   " ++ e.2.1 ++ " [default: " ++
        quote_str e.2.2 ++ "]") ++ [""])

/-- `avail_easyconfig_params_txt(title, grouped_params)` (docs.py 97-120). -/
def avail_easyconfig_params_txt (title : String) (grouped : GroupedParams) :
    Option String := do
  let groups ← grouped.mapM txt_group_lines
  pure (String.intercalate "\n" ([title ++ ":", ""] ++ groups.flatten))

/-- The parameter-name marking of docs.py lines 151-153: a name present in
`extra_params` is suffixed with `*`. -/
def markName (extra : ParamTable) (name : String) : String :=
  if extra.any (fun q => q.1 == name) then name ++ "*" else name

/-- The body of the inner loop of docs.py lines 149-154: place `kv` in the
group when its category equals `c`, under its (possibly `*`-marked) name. -/
def placeParam (extra : ParamTable) (c : Category) (g : ParamGroup)
    (kv : String × ParamInfo) : ParamGroup :=
  if kv.2.2.2 = c then
    dictSet g (markName extra kv.1) (kv.2.2.1, kv.2.1)
  else g

/-- The inner loop of docs.py lines 149-154: starting from the fresh
`grouped_params[grpname] = {}`, place every parameter of `params` whose
category equals `c`. -/
def buildGroup (extra params : ParamTable) (c : Category) : ParamGroup :=
  params.foldl (placeParam extra c) []

/-- One iteration of the grouping loop of docs.py lines 142-157: skip a
category whose upper-cased label is the hidden marker, otherwise fill the
group and delete it again when it ends up empty. -/
def groupStep (params extra : ParamTable) (H : String) (gp : GroupedParams)
    (c : Category) : GroupedParams :=
  if pyUpper c.2 = H then gp
  else if (buildGroup extra params c).isEmpty then dictDel gp c.2
  else dictSet gp c.2 (buildGroup extra params c)

/-- The grouping loop of docs.py lines 141-157. -/
def groupParams (cats : List Category) (H : String) (params extra : ParamTable) :
    GroupedParams :=
  cats.foldl (groupStep params extra H) []

/-- `extra_params` as computed by docs.py lines 129-132: the resolved class's
`extra_options()`, or `{}` when resolution fails (or no easyblock is given). -/
def extra_params_of (fw : Framework) (easyblock : Option String) : ParamTable :=
  match easyblock.bind fw.get_easyblock_class with
  | some app => app.extra_options
  | none => []

/-- The working parameter table of docs.py lines 126-133:
`params = copy.deepcopy(DEFAULT_CONFIG); params.update(extra_params)`. -/
def working_params (fw : Framework) (easyblock : Option String) : ParamTable :=
  dictUpdate fw.DEFAULT_CONFIG (extra_params_of fw easyblock)

/-- `app.__name__` of the resolved class (only read when extra parameters were
merged, in which case resolution succeeded). -/
def app_name (fw : Framework) (easyblock : Option String) : String :=
  match easyblock.bind fw.get_easyblock_class with
  | some app => app.name
  | none => ""

/-- The title composed by docs.py lines 136-138. -/
def title_of (fw : Framework) (easyblock : Option String) : String :=
  if (extra_params_of fw easyblock).isEmpty then
    "Available easyconfig parameters"
  else
    "Available easyconfig parameters (* indicates specific to the " ++
      app_name fw easyblock ++ " easyblock)"

/-- The `grouped_params` value passed to the renderers (docs.py lines 141-157). -/
def grouped_params_of (fw : Framework) (easyblock : Option String) : GroupedParams :=
  groupParams fw.sorted_categories fw.HIDDEN (working_params fw easyblock)
    (extra_params_of fw easyblock)

/-- `avail_easyconfig_params(easyblock, output_format)` (docs.py 122-164).
The final dispatch `avail_easyconfig_params_functions[output_format](...)`
raises `KeyError` for a selector other than the two fixed keys. -/
def avail_easyconfig_params (fw : Framework) (easyblock : Option String)
    (output_format : String) : Except PyError String :=
  let title := title_of fw easyblock
  let grouped := grouped_params_of fw easyblock
  if output_format = FORMAT_RST then
    match avail_easyconfig_params_rst title grouped with
    | some s => Except.ok s
    | none => Except.error PyError.valueError
  else if output_format = FORMAT_TXT then
    match avail_easyconfig_params_txt title grouped with
    | some s => Except.ok s
    | none => Except.error PyError.valueError
  else Except.error (PyError.keyError output_format)

/-!
A heap model for the frame-effect claim about `copy.deepcopy` (docs.py lines
126 and 133).  Python objects live in cells addressed by naturals; the shared
`DEFAULT_CONFIG` dict sits in some cell, `deepcopy` allocates a fresh cell
holding a copy of its contents, and `params.update(...)` writes only that
fresh cell.
-/

/-- A heap of Python dict objects. -/
structure Heap where
  cells : List ParamTable

/-- Read the dict at reference `r` (missing references read as `{}`). -/
def Heap.get (h : Heap) (r : Nat) : ParamTable :=
  (h.cells.get? r).getD []

/-- Overwrite the dict at reference `r`. -/
def Heap.set (h : Heap) (r : Nat) (v : ParamTable) : Heap :=
  ⟨h.cells.set r v⟩

/-- Allocate a fresh cell holding `v`; returns the new heap and reference. -/
def Heap.alloc (h : Heap) (v : ParamTable) : Heap × Nat :=
  (⟨h.cells ++ [v]⟩, h.cells.length)

/-- Docs.py lines 126 and 133 with object aliasing explicit:
`params = copy.deepcopy(DEFAULT_CONFIG)` allocates a fresh cell holding a copy
of the table at `defRef`, and `params.update(extra_params)` writes the fresh
cell only.  Returns the final heap and the reference held by `params`. -/
def avail_params_prepare (h : Heap) (defRef : Nat) (extra : ParamTable) :
    Heap × Nat :=
  let hr := h.alloc (h.get defRef)
  let h1 := hr.1
  let r := hr.2
  (h1.set r (dictUpdate (h1.get r) extra), r)

/-!  `doc_easyblock` (docs.py 185-255) and the pieces it needs. -/

/-- The hard-coded commonly-used-parameters lookup (docs.py 191-194). -/
def common_params : List (String × List String) :=
  [("ConfigureMake", ["configopts", "buildopts", "installopts"])]

/-- An easyblock class as consumed by `doc_easyblock`: `__name__`, the names
of `__bases__`, `__doc__`, and `extra_options()`. -/
structure EBDocClass where
  name : String
  bases : List String
  doc : String
  extra_options : ParamTable

/-- `doc_easyblock(eb_class)` (docs.py 185-255).  The `doc_examples`
directory listing and file contents are supplied as an assoc list
filename -> lines (filesystem made explicit); `DEFAULT_CONFIG` is read from
the framework for the commonly-used-parameters bullets, where a missing key
would raise `KeyError` (`none`). -/
def doc_easyblock (fw : Framework) (doc_examples : List (String × List String))
    (eb : EBDocClass) : Option String := do
  let classname := eb.name
  let lines1 := ["``" ++ classname ++ "``", strRep '=' (classname.length + 4),
    ""]
  let derived := "(derives from " ++
    String.intercalate ", " (eb.bases.map (fun b => "``" ++ b ++ "``")) ++ ")"
  let lines2 := lines1 ++ [derived, ""] ++ [pyStrip eb.doc, ""]
  let lines3 ←
    if eb.extra_options.isEmpty then pure lines2
    else do
      let ex_opt := eb.extra_options
      let extra_parameters := "Extra easyconfig parameters specific to ``" ++
        classname ++ "`` easyblock"
      let ectitle := "easyconfig parameter"
      let desctitle := "description"
      let dftitle := "default value"
      let nw0 ← det_col_width (ex_opt.map (fun p => p.1)) ectitle
      let nw := nw0 + 4
      let dw ← det_col_width (ex_opt.map (fun p => p.2.2.1)) desctitle
      let dfw0 ← det_col_width (ex_opt.map (fun p => pyStr p.2.1)) dftitle
      let dfw := dfw0 + 4
      let row := fun (c : Char) (a b d : String) =>
        padWith c nw a ++ "   " ++ padWith c dw b ++ "   " ++ padWith c dfw d
      let data := ex_opt.map (fun p =>
        row ' ' ("``" ++ p.1 ++ "``") p.2.2.1
          ("``" ++ quote_str p.2.1 ++ "``"))
      pure (lines2 ++
        [extra_parameters, strRep '-' extra_parameters.length, ""] ++
        [row '=' "" "" "", row ' ' ectitle desctitle dftitle,
          row '=' "" "" ""] ++
        data ++ [row '=' "" "" "", ""])
  let lines4 ←
    if (common_params.map (fun p => p.1)).contains classname then do
      let commonly_used := "Commonly used easyconfig parameters with ``" ++
        classname ++ "`` easyblock"
      let opts := (dictGet common_params classname).getD []
      let items ← opts.mapM (fun opt => do
        let info ← dictGet fw.DEFAULT_CONFIG opt
        pure ("* ``" ++ opt ++ "`` - " ++ info.2.1))
      pure (lines3 ++ [commonly_used, strRep '-' commonly_used.length] ++ items)
    else pure lines3
  let lines5 :=
    if (doc_examples.map (fun p => p.1)).contains (classname ++ ".eb") then
      let content := (dictGet doc_examples (classname ++ ".eb")).getD []
      lines4 ++ ["", "Example", strRep '-' 8, "", "::", ""] ++
        content.map (fun l => "    " ++ pyStrip l) ++ [""]
    else lines4
  pure (String.intercalate "\n" lines5)

/-- Split a character list at newline characters (accumulator holds the
current line reversed). -/
def splitLinesAux : List Char → List Char → List String
  | [], acc => [String.mk acc.reverse]
  | c :: cs, acc =>
    if c = '\n' then String.mk acc.reverse :: splitLinesAux cs []
    else splitLinesAux cs (c :: acc)

/-- Split a string into its lines (structurally recursive, so that concrete
outputs can be inspected by definitional evaluation). -/
def splitLines (s : String) : List String :=
  splitLinesAux s.data []

/-! Concrete instances used by the example-scenario claim, the
`doc_easyblock` width divergence, and the witnesses. -/

/-- The spec's example scenario: the single parameter set
`name -> ('ConfigureMake', 'Name of the software', (10, 'BUILD'))`,
no hidden entries, no easyblock resolution. -/
def fw9 : Framework :=
  { DEFAULT_CONFIG :=
      [("name", (PyVal.str "ConfigureMake", "Name of the software",
        (10, "BUILD")))],
    sorted_categories := [(10, "BUILD")],
    HIDDEN := "HIDDEN",
    get_easyblock_class := fun _ => none }

/-- A framework with an empty default table, used where only `doc_easyblock`
is exercised. -/
def fwC2 : Framework :=
  { DEFAULT_CONFIG := [],
    sorted_categories := [],
    HIDDEN := "HIDDEN",
    get_easyblock_class := fun _ => none }

/-- An easyblock whose single extra option has a string default of length 12:
`str(quote_str(default))` is 2 characters longer than `str(default)`, which
is what docs.py line 224 measures. -/
def ebC2 : EBDocClass :=
  { name := "Foo",
    bases := ["EasyBlock"],
    doc := "Builds Foo.",
    extra_options :=
      [("toolopts", (PyVal.str "abcdefghijkl", "tool options",
        (1, "custom")))] }

/-! Concrete framework, group and heap used by the witnesses. -/

/-- A framework with one visible default parameter, one hidden parameter and
one resolvable easyblock (`CM`) declaring one extra option. -/
def fwW : Framework :=
  { DEFAULT_CONFIG :=
      [("name", (PyVal.str "ConfigureMake", "Name of the software",
        (10, "BUILD"))),
       ("secret", (PyVal.other "None", "internal knob", (66, "hidden")))],
    sorted_categories := [(10, "BUILD"), (66, "hidden")],
    HIDDEN := "HIDDEN",
    get_easyblock_class := fun n =>
      if n == "CM" then
        some { name := "ConfigureMake",
               extra_options :=
                 [("configopts", (PyVal.str "", "configure options",
                   (10, "BUILD")))] }
      else none }

/-- The single group produced by `fwW` with easyblock `CM`: the hidden
category is skipped and the extra parameter is starred. -/
def gW : String × ParamGroup :=
  ("BUILD",
    [("name", ("Name of the software", PyVal.str "ConfigureMake")),
     ("configopts*", ("configure options", PyVal.str ""))])

/-- The starred entry of `gW`. -/
def eW : String × (String × PyVal) :=
  ("configopts*", ("configure options", PyVal.str ""))

def heapW : Heap :=
  ⟨[[("name", (PyVal.str "x", "software name", (0, "BUILD")))]]⟩

def extraW : ParamTable :=
  [("opts", (PyVal.str "", "build options", (0, "BUILD")))]

/-! Helper lemmas about the dict operations and `pythonMax`. -/

theorem mem_dictSet {α : Type} (d : List (String × α)) (k : String) (v : α) :
    ∀ e ∈ dictSet d k v, e = (k, v) ∨ e ∈ d := by
  intro e he
  unfold dictSet at he
  split at he
  · obtain ⟨p, hp, hpe⟩ := List.mem_map.mp he
    by_cases h2 : p.1 == k
    · left
      rw [if_pos h2] at hpe
      exact hpe.symm
    · right
      rw [if_neg h2] at hpe
      exact hpe ▸ hp
  · rcases List.mem_append.mp he with h1 | h1
    · right
      exact h1
    · left
      simpa using h1

theorem mem_dictDel {α : Type} (d : List (String × α)) (k : String) :
    ∀ e ∈ dictDel d k, e ∈ d := by
  intro e he
  exact List.mem_of_mem_filter he

theorem mem_foldl_placeParam (extra : ParamTable) (c : Category) :
    ∀ (l : ParamTable) (g0 : ParamGroup) (e : String × (String × PyVal)),
      e ∈ l.foldl (placeParam extra c) g0 →
      (∃ kv ∈ l, kv.2.2.2 = c ∧ e.1 = markName extra kv.1 ∧
        e.2 = (kv.2.2.1, kv.2.1)) ∨ e ∈ g0 := by
  intro l
  induction l with
  | nil =>
    intro g0 e he
    right
    exact he
  | cons kv rest ih =>
    intro g0 e he
    rw [List.foldl_cons] at he
    rcases ih _ e he with h | h
    · left
      obtain ⟨kv2, h1, h2⟩ := h
      exact ⟨kv2, List.mem_cons_of_mem _ h1, h2⟩
    · unfold placeParam at h
      by_cases hc : kv.2.2.2 = c
      · rw [if_pos hc] at h
        rcases mem_dictSet _ _ _ e h with h2 | h2
        · left
          refine ⟨kv, List.mem_cons_self _ _, hc, ?_, ?_⟩
          · rw [h2]
          · rw [h2]
        · right
          exact h2
      · rw [if_neg hc] at h
        right
        exact h

theorem mem_buildGroup (extra params : ParamTable) (c : Category) :
    ∀ e ∈ buildGroup extra params c,
      ∃ kv ∈ params, kv.2.2.2 = c ∧ e.1 = markName extra kv.1 ∧
        e.2 = (kv.2.2.1, kv.2.1) := by
  intro e he
  rcases mem_foldl_placeParam extra c params [] e he with h | h
  · exact h
  · exact absurd h (List.not_mem_nil e)

theorem mem_foldl_groupStep (params extra : ParamTable) (H : String) :
    ∀ (cats : List Category) (gp0 : GroupedParams) (g : String × ParamGroup),
      g ∈ cats.foldl (groupStep params extra H) gp0 →
      (∃ c ∈ cats, ¬ pyUpper c.2 = H ∧ g.1 = c.2 ∧
        g.2 = buildGroup extra params c ∧
        (buildGroup extra params c).isEmpty = false) ∨ g ∈ gp0 := by
  intro cats
  induction cats with
  | nil =>
    intro gp0 g hg
    right
    exact hg
  | cons c rest ih =>
    intro gp0 g hg
    rw [List.foldl_cons] at hg
    rcases ih _ g hg with h | h
    · left
      obtain ⟨c2, h1, h2⟩ := h
      exact ⟨c2, List.mem_cons_of_mem _ h1, h2⟩
    · unfold groupStep at h
      by_cases hH : pyUpper c.2 = H
      · rw [if_pos hH] at h
        right
        exact h
      · rw [if_neg hH] at h
        by_cases hem : (buildGroup extra params c).isEmpty
        · rw [if_pos hem] at h
          right
          exact mem_dictDel _ _ g h
        · rw [if_neg hem] at h
          rcases mem_dictSet _ _ _ g h with h2 | h2
          · left
            refine ⟨c, List.mem_cons_self _ _, hH, ?_, ?_, ?_⟩
            · rw [h2]
            · rw [h2]
            · exact Bool.eq_false_iff.mpr hem
          · right
            exact h2

/-- Soundness of the grouping loop: every group passed on to a renderer names
a non-hidden listed category and holds exactly the (nonempty) group built for
that category. -/
theorem grouped_sound (fw : Framework) (eb : Option String) :
    ∀ g ∈ grouped_params_of fw eb,
      ∃ c ∈ fw.sorted_categories, ¬ pyUpper c.2 = fw.HIDDEN ∧ g.1 = c.2 ∧
        g.2 = buildGroup (extra_params_of fw eb) (working_params fw eb) c ∧
        (buildGroup (extra_params_of fw eb) (working_params fw eb) c).isEmpty
          = false := by
  intro g hg
  rcases mem_foldl_groupStep _ _ _ _ _ g hg with h | h
  · exact h
  · exact absurd h (List.not_mem_nil g)

theorem le_foldl_max (x : Nat) (xs : List Nat) :
    ∀ y ∈ x :: xs, y ≤ xs.foldl max x := by
  induction xs generalizing x with
  | nil =>
    intro y hy
    rw [List.mem_singleton] at hy
    simp [hy]
  | cons a l ih =>
    intro y hy
    rw [List.foldl_cons]
    have hbase : max x a ≤ l.foldl max (max x a) :=
      ih (max x a) (max x a) (List.mem_cons_self _ _)
    rcases List.mem_cons.mp hy with h | h
    · subst h
      exact le_trans (le_max_left _ _) hbase
    · rcases List.mem_cons.mp h with h2 | h2
      · subst h2
        exact le_trans (le_max_right _ _) hbase
      · exact ih (max x a) y (List.mem_cons_of_mem _ h2)

theorem foldl_max_mem (x : Nat) (xs : List Nat) : xs.foldl max x ∈ x :: xs := by
  induction xs generalizing x with
  | nil => simp
  | cons a l ih =>
    rw [List.foldl_cons]
    rcases List.mem_cons.mp (ih (max x a)) with h | h
    · rcases max_choice x a with hx | hx
      · rw [h, hx]
        exact List.mem_cons_self _ _
      · rw [h, hx]
        exact List.mem_cons_of_mem _ (List.mem_cons_self _ _)
    · exact List.mem_cons_of_mem _ (List.mem_cons_of_mem _ h)

theorem txt_group_lines_isSome (gn : String) (gl : ParamGroup) (h : gl ≠ []) :
    ∃ ls, txt_group_lines (gn, gl) = some ls := by
  cases gl with
  | nil => exact absurd rfl h
  | cons e es => exact ⟨_, rfl⟩

theorem mapM_txt_isSome (grouped : GroupedParams)
    (h : ∀ g ∈ grouped, g.2 ≠ []) :
    ∃ ls, grouped.mapM txt_group_lines = some ls := by
  induction grouped with
  | nil => exact ⟨[], rfl⟩
  | cons g rest ih =>
    obtain ⟨ls1, h1⟩ :=
      txt_group_lines_isSome g.1 g.2 (h g (List.mem_cons_self _ _))
    obtain ⟨ls2, h2⟩ := ih (fun g2 hg2 => h g2 (List.mem_cons_of_mem _ hg2))
    refine ⟨ls1 :: ls2, ?_⟩
    rw [List.mapM_cons]
    have hg1 : txt_group_lines g = some ls1 := by
      rw [show g = (g.1, g.2) from rfl] at *
      exact h1
    rw [hg1, h2]
    rfl

theorem avail_txt_ok (fw : Framework) (eb : Option String)
    (h : ∀ g ∈ grouped_params_of fw eb, g.2 ≠ []) :
    ∃ s, avail_easyconfig_params fw eb FORMAT_TXT = Except.ok s := by
  obtain ⟨ls, hls⟩ := mapM_txt_isSome _ h
  have hsome : ∃ s, avail_easyconfig_params_txt (title_of fw eb)
      (grouped_params_of fw eb) = some s := by
    unfold avail_easyconfig_params_txt
    rw [hls]
    exact ⟨_, rfl⟩
  obtain ⟨s, hs⟩ := hsome
  refine ⟨s, ?_⟩
  unfold avail_easyconfig_params
  rw [if_neg (by decide : ¬ (FORMAT_TXT = FORMAT_RST)), if_pos rfl, hs]

theorem foldl_filter_eq {α β : Type} (f : β → α → β) (p : α → Bool)
    (l : List α) (h : ∀ b a, a ∈ l → p a = false → f b a = b) :
    ∀ b, (l.filter p).foldl f b = l.foldl f b := by
  induction l with
  | nil =>
    intro b
    rfl
  | cons a rest ih =>
    intro b
    by_cases hp : p a
    · rw [List.filter_cons_of_pos hp, List.foldl_cons, List.foldl_cons]
      exact ih (fun b2 a2 ha2 => h b2 a2 (List.mem_cons_of_mem _ ha2)) (f b a)
    · rw [List.filter_cons_of_neg (by simpa using hp), List.foldl_cons,
        h b a (List.mem_cons_self _ _) (Bool.eq_false_iff.mpr hp)]
      exact ih (fun b2 a2 ha2 => h b2 a2 (List.mem_cons_of_mem _ ha2)) b

theorem buildGroup_filter (extra params : ParamTable) (cats : List Category)
    (c : Category) (hc : c ∈ cats) :
    buildGroup extra
        (params.filter (fun kv => decide (kv.2.2.2 ∈ cats))) c =
      buildGroup extra params c := by
  unfold buildGroup
  apply foldl_filter_eq
  intro g kv _ hp
  unfold placeParam
  rw [if_neg]
  intro hcat
  rw [decide_eq_false_iff_not] at hp
  exact hp (hcat ▸ hc)

theorem groupParams_filter (cats : List Category) (H : String)
    (params extra : ParamTable) :
    groupParams cats H
        (params.filter (fun kv => decide (kv.2.2.2 ∈ cats))) extra =
      groupParams cats H params extra := by
  unfold groupParams
  apply List.foldl_ext
  intro gp c hc
  unfold groupStep
  rw [buildGroup_filter extra params cats c hc]

/-! Claim theorems. -/

/-- C4 (counterexample): the claim says `det_col_width` "raises a domain
error when the candidate sequence is empty and the title is empty".  It does
not: the source appends the title to the candidates before taking `max`, so
`max` runs over the one-element list `['']` and returns `0` -- no exception
(`none` would model the `ValueError`). -/
theorem det_col_width_empty_empty_returns_zero :
    det_col_width [] "" = some 0 ∧ det_col_width [] "" ≠ none := by
  exact ⟨rfl, by decide⟩

/-- C4 (amended): `det_col_width(entries, title)` is total over every finite
input (never a domain error, even when both the entries and the title are
empty): it returns the maximum character length over all candidate strings
and the title. -/
theorem det_col_width_returns_max (entries : List String) (title : String) :
    ∃ m, det_col_width entries title = some m ∧
      title.length ≤ m ∧ (∀ s ∈ entries, s.length ≤ m) ∧
      m ∈ (entries ++ [title]).map String.length := by
  cases hL : (entries ++ [title]).map String.length with
  | nil =>
    exfalso
    have : entries ++ [title] = [] := List.map_eq_nil_iff.mp hL
    simpa using congrArg List.length this
  | cons x xs =>
    refine ⟨xs.foldl max x, ?_, ?_, ?_, ?_⟩
    · unfold det_col_width pythonMax
      rw [hL]
    · have hmem : title.length ∈ (entries ++ [title]).map String.length :=
        List.mem_map_of_mem _ (List.mem_append_right _ (List.mem_singleton.mpr rfl))
      rw [hL] at hmem
      exact le_foldl_max x xs _ hmem
    · intro s hs
      have hmem : s.length ∈ (entries ++ [title]).map String.length :=
        List.mem_map_of_mem _ (List.mem_append_left _ hs)
      rw [hL] at hmem
      exact le_foldl_max x xs _ hmem
    · exact foldl_max_mem x xs

/-- C6: for every output-format selector other than `rst` and `txt`,
`avail_easyconfig_params` fails with a `KeyError` on the dispatch table
(docs.py lines 160-164): the table has exactly the two keys and the lookup
failure is not caught. -/
theorem avail_easyconfig_params_unknown_format (fw : Framework)
    (eb : Option String) (fmt : String) (h1 : fmt ≠ FORMAT_RST)
    (h2 : fmt ≠ FORMAT_TXT) :
    avail_easyconfig_params fw eb fmt =
      Except.error (PyError.keyError fmt) := by
  unfold avail_easyconfig_params
  rw [if_neg h1, if_neg h2]

/-- C7: when class resolution returns no class (docs.py lines 130-131,
`get_easyblock_class(easyblock, default_fallback=False)` is `None`),
`avail_easyconfig_params` does not fail and produces exactly the output of a
call with no easyblock given: default parameters only, plain title, no `*`. -/
theorem unresolved_easyblock_same_as_none (fw : Framework) (name : String)
    (fmt : String) (h : fw.get_easyblock_class name = none) :
    avail_easyconfig_params fw (some name) fmt =
      avail_easyconfig_params fw none fmt := by
  unfold avail_easyconfig_params title_of grouped_params_of working_params
    extra_params_of app_name
  simp [h]

/-- C1: for every input parameter table and easyblock argument, no parameter
whose category is the hidden category reaches a renderer: the aggregator
(docs.py lines 142-154) skips every category whose upper-cased label equals
`HIDDEN` before building `grouped_params`, so each group handed to the rst or
txt renderer names a non-hidden listed category and each of its entries stems
from a parameter whose category is that non-hidden category. -/
theorem avail_easyconfig_params_excludes_hidden (fw : Framework)
    (eb : Option String) :
    ∀ g ∈ grouped_params_of fw eb,
      ∃ c ∈ fw.sorted_categories, ¬ pyUpper c.2 = fw.HIDDEN ∧ g.1 = c.2 ∧
        ∀ e ∈ g.2, ∃ kv ∈ working_params fw eb,
          kv.2.2.2 = c ∧ ¬ pyUpper (kv.2.2.2).2 = fw.HIDDEN ∧
          e.1 = markName (extra_params_of fw eb) kv.1 ∧
          e.2 = (kv.2.2.1, kv.2.1) := by
  intro g hg
  obtain ⟨c, hc, hH, hname, hval, _⟩ := grouped_sound fw eb g hg
  refine ⟨c, hc, hH, hname, ?_⟩
  intro e he
  rw [hval] at he
  obtain ⟨kv, hkv, hcat, h1, h2⟩ := mem_buildGroup _ _ _ e he
  refine ⟨kv, hkv, hcat, ?_, h1, h2⟩
  rw [hcat]
  exact hH

/-- C3: in the aggregated output, every parameter entry stems from a working
parameter; if that parameter's name is declared in the easyblock's extra set
it is rendered with a `*` suffix, and a name present only in the framework
defaults is rendered without the suffix (docs.py lines 149-154). -/
theorem extra_params_get_star_suffix (fw : Framework) (eb : Option String)
    (_hx : extra_params_of fw eb ≠ []) :
    ∀ g ∈ grouped_params_of fw eb, ∀ e ∈ g.2,
      ∃ kv ∈ working_params fw eb,
        (((extra_params_of fw eb).any (fun q => q.1 == kv.1)) = true ∧
            e.1 = kv.1 ++ "*") ∨
        (((extra_params_of fw eb).any (fun q => q.1 == kv.1)) = false ∧
            e.1 = kv.1) := by
  intro g hg e he
  obtain ⟨c, _, _, _, hval, _⟩ := grouped_sound fw eb g hg
  rw [hval] at he
  obtain ⟨kv, hkv, _, h1, _⟩ := mem_buildGroup _ _ _ e he
  refine ⟨kv, hkv, ?_⟩
  unfold markName at h1
  by_cases hin : (extra_params_of fw eb).any (fun q => q.1 == kv.1)
  · left
    rw [if_pos hin] at h1
    exact ⟨hin, h1⟩
  · right
    rw [if_neg hin] at h1
    exact ⟨Bool.eq_false_iff.mpr hin, h1⟩

/-- C5: for every input, a category group in which every parameter is hidden
or which matches no parameter is deleted by the aggregator before rendering
(docs.py lines 156-157), so every group a renderer receives is nonempty, and
in particular the plain-text renderer's `max` over the group's keys (docs.py
line 113) never runs over an empty sequence: rendering in txt format
succeeds. -/
theorem empty_groups_dropped_before_rendering (fw : Framework)
    (eb : Option String) :
    (∀ g ∈ grouped_params_of fw eb, g.2 ≠ []) ∧
    ∃ s, avail_easyconfig_params fw eb FORMAT_TXT = Except.ok s := by
  have h1 : ∀ g ∈ grouped_params_of fw eb, g.2 ≠ [] := by
    intro g hg
    obtain ⟨c, _, _, _, hval, hne⟩ := grouped_sound fw eb g hg
    rw [hval]
    intro hnil
    rw [hnil] at hne
    exact absurd hne (by decide)
  exact ⟨h1, avail_txt_ok fw eb h1⟩

/-- C10 (implicit): a parameter whose category is not equal to any category
returned by `sorted_categories()` is silently omitted: deleting all such
parameters from the working table leaves the grouped output unchanged, since
the aggregator only places a parameter when its category exactly equals the
listed category being processed (docs.py line 150). -/
theorem unlisted_category_params_omitted (fw : Framework)
    (eb : Option String) :
    groupParams fw.sorted_categories fw.HIDDEN
        ((working_params fw eb).filter
          (fun kv => decide (kv.2.2.2 ∈ fw.sorted_categories)))
        (extra_params_of fw eb) =
      grouped_params_of fw eb := by
  unfold grouped_params_of
  exact groupParams_filter fw.sorted_categories fw.HIDDEN
    (working_params fw eb) (extra_params_of fw eb)

/-- C9: aggregating the example parameter set and rendering it in plain-text
format yields a section titled `BUILD` whose parameter line starts with
`name`, followed by the description and `[default: 'ConfigureMake']` with the
string default quoted (the full output is computed exactly). -/
theorem example_scenario_renders_txt :
    avail_easyconfig_params fw9 none FORMAT_TXT =
      Except.ok ("Available easyconfig parameters:\n\nBUILD\n-----\n" ++
        "name   Name of the software [default: \x27ConfigureMake\x27]\n") := by
  rfl

/-- C2: `doc_easyblock` computes the default-value column width from the
unquoted `str(val[0])` (docs.py line 224) but renders the cell as the quoted
default wrapped in backticks (line 235).  For `ebC2` the computed width is
`max(12, 13) + 4 = 17` (13 is the length of the `default value` column
title) while the rendered cell has length 18, so the data row (line index 13
of the output) is one character longer than the `=` table delimiter (line
index 10): the rendered cell exceeds the computed column width and the table
misaligns. -/
theorem doc_easyblock_default_cell_overflows :
    det_col_width [pyStr (PyVal.str "abcdefghijkl")] "default value" =
        some 13 ∧
    ("``" ++ quote_str (PyVal.str "abcdefghijkl") ++ "``").length = 13 + 5 ∧
    (∃ out, doc_easyblock fwC2 [] ebC2 = some out ∧
      ((splitLines out).get? 10).map String.length = some 59 ∧
      ((splitLines out).get? 13).map String.length = some 60) := by
  constructor
  · rfl
  constructor
  · rfl
  refine ⟨_, rfl, ?_, ?_⟩
  · rfl
  · rfl

/-- C8: `avail_easyconfig_params` never mutates the shared default table:
`params = copy.deepcopy(DEFAULT_CONFIG)` (docs.py line 126) allocates a fresh
object and `params.update(extra_params)` (line 133) writes only that object,
so after the call the cell holding `DEFAULT_CONFIG` is unchanged (repeated
calls therefore start from the same defaults), while the working object holds
the merged table. -/
theorem deepcopy_shields_DEFAULT_CONFIG (h : Heap) (defRef : Nat)
    (extra : ParamTable) (hr : defRef < h.cells.length) :
    ((avail_params_prepare h defRef extra).1).get defRef = h.get defRef ∧
    (avail_params_prepare h defRef extra).2 ≠ defRef ∧
    ((avail_params_prepare h defRef extra).1).get
        ((avail_params_prepare h defRef extra).2) =
      dictUpdate (h.get defRef) extra := by
  have hne : h.cells.length ≠ defRef := Nat.ne_of_gt hr
  refine ⟨?_, hne, ?_⟩
  · show ((((h.cells ++ [h.get defRef]).set h.cells.length _).get?
        defRef).getD []) = (h.cells.get? defRef).getD []
    rw [List.get?_set_ne _ _ hne, List.get?_append hr]
  · show ((((h.cells ++ [h.get defRef]).set h.cells.length
        (dictUpdate (((h.cells ++ [h.get defRef]).get?
          h.cells.length).getD []) extra)).get? h.cells.length).getD []) =
      dictUpdate (h.get defRef) extra
    have hlt : h.cells.length < (h.cells ++ [h.get defRef]).length := by
      rw [List.length_append]
      simp
    rw [List.get?_set_eq_of_lt _ hlt, List.get?_concat_length]
    rfl

/-- Witness for C1 at the concrete input `fwW`, easyblock `CM`, group `gW`. -/
theorem avail_easyconfig_params_excludes_hidden_witness :
    gW ∈ grouped_params_of fwW (some "CM") ∧
    (∃ c ∈ fwW.sorted_categories, ¬ pyUpper c.2 = fwW.HIDDEN ∧ gW.1 = c.2 ∧
      ∀ e ∈ gW.2, ∃ kv ∈ working_params fwW (some "CM"),
        kv.2.2.2 = c ∧ ¬ pyUpper (kv.2.2.2).2 = fwW.HIDDEN ∧
        e.1 = markName (extra_params_of fwW (some "CM")) kv.1 ∧
        e.2 = (kv.2.2.1, kv.2.1)) :=
  ⟨by decide,
    avail_easyconfig_params_excludes_hidden fwW (some "CM") gW (by decide)⟩

/-- Witness for C3 at the concrete input `fwW`, easyblock `CM`, group `gW`,
entry `eW`. -/
theorem extra_params_get_star_suffix_witness :
    (extra_params_of fwW (some "CM") ≠ []) ∧
    gW ∈ grouped_params_of fwW (some "CM") ∧ eW ∈ gW.2 ∧
    (∃ kv ∈ working_params fwW (some "CM"),
      (((extra_params_of fwW (some "CM")).any (fun q => q.1 == kv.1)) = true ∧
          eW.1 = kv.1 ++ "*") ∨
      (((extra_params_of fwW (some "CM")).any (fun q => q.1 == kv.1)) = false ∧
          eW.1 = kv.1)) :=
  ⟨by decide, by decide, by decide,
    extra_params_get_star_suffix fwW (some "CM") (by decide) gW (by decide)
      eW (by decide)⟩

/-- Witness for C6 at the concrete unrecognized selector `json`. -/
theorem avail_easyconfig_params_unknown_format_witness :
    ("json" ≠ FORMAT_RST) ∧ ("json" ≠ FORMAT_TXT) ∧
    avail_easyconfig_params fwW none "json" =
      Except.error (PyError.keyError "json") :=
  ⟨by decide, by decide,
    avail_easyconfig_params_unknown_format fwW none "json" (by decide)
      (by decide)⟩

/-- Witness for C7 at the concrete unresolvable easyblock name `Unknown`. -/
theorem unresolved_easyblock_same_as_none_witness :
    (fwW.get_easyblock_class "Unknown" = none) ∧
    avail_easyconfig_params fwW (some "Unknown") FORMAT_TXT =
      avail_easyconfig_params fwW none FORMAT_TXT :=
  ⟨by decide,
    unresolved_easyblock_same_as_none fwW "Unknown" FORMAT_TXT (by decide)⟩

/-- Witness for C8 at the concrete heap `heapW` (the default table in cell 0)
and update `extraW`. -/
theorem deepcopy_shields_DEFAULT_CONFIG_witness :
    (0 < heapW.cells.length) ∧
    (((avail_params_prepare heapW 0 extraW).1).get 0 = heapW.get 0 ∧
     (avail_params_prepare heapW 0 extraW).2 ≠ 0 ∧
     ((avail_params_prepare heapW 0 extraW).1).get
         ((avail_params_prepare heapW 0 extraW).2) =
       dictUpdate (heapW.get 0) extraW) :=
  ⟨by decide, deepcopy_shields_DEFAULT_CONFIG heapW 0 extraW (by decide)⟩
